import Mathlib

/-!
Shallow embedding (in Lean 4) of the SAGA core subsystems, translated from the
Python sources of the repository:

* `src/saga/mode_controller.py`        — `OperationMode`, `ModeController`
* `src/saga/search/routers.py`         — `MathStrategy.parse_candidates`
* `src/saga/search/generators.py`      — `LLMGenerator`, `EvoGenerator`, `ParetoSelector`
* `src/saga/modules/advanced_implementer.py` — `AdvancedImplementer`

Python floats are modelled as `ℚ`, Python lists as `List`, Python sets as
duplicate-free `List String` (membership is what the claims compare),
Python dictionaries that may miss keys as `Option` fields.  Code that can
raise is modelled with `Option`/`Except`.  External effects (the CPython
`compile` builtin, the LLM client, the random number generator) are passed
in explicitly as oracles, so every definition stays executable and
kernel-reducible.  String primitives (`split`, `strip`, `lower`, `in`,
`startswith`, slicing) are re-implemented on `List Char` by structural
recursion so that concrete runs evaluate inside the kernel; they follow the
Python semantics on the ASCII + CJK data these modules handle (Python's
`\d`/`\s` and `str.lower()` additionally cover exotic Unicode classes that
never pass the parsers' ASCII allow-lists).
-/

/-! ## String helpers mirroring Python primitives -/

/-- Python's substring test `p in s`: some position of `s` starts with `p`. -/
def substrB (p s : String) : Bool :=
  (List.range (s.data.length + 1)).any (fun i => p.data.isPrefixOf (s.data.drop i))

/-- Characters Python's `str.strip()` removes on the data reachable here. -/
def pyWs (c : Char) : Bool := c.isWhitespace

/-- `l` with leading and trailing whitespace removed. -/
def trimChars (l : List Char) : List Char :=
  ((l.dropWhile pyWs).reverse.dropWhile pyWs).reverse

/-- Python's `s.strip()`. -/
def pyStrip (s : String) : String := ⟨trimChars s.data⟩

/-- Python's `s.lower()` (ASCII range; identity on the CJK markers used). -/
def pyLower (s : String) : String := ⟨s.data.map Char.toLower⟩

/-- Python's `s.startswith(p)`. -/
def pyStarts (s p : String) : Bool := p.data.isPrefixOf s.data

/-- The suffix of `l` after the first occurrence of `sep`, when there is
one: the list-level engine of Python's `s.split(sep, 1)[1]`. -/
def afterFirst (sep : List Char) : List Char → Option (List Char)
  | [] => if sep.isEmpty then some [] else none
  | c :: rest =>
    if sep.isPrefixOf (c :: rest) then some ((c :: rest).drop sep.length)
    else afterFirst sep rest

/-- Python's `s.split(sep, 1)[1]`.  Callers in the sources only use it under
a `startswith` guard, so the occurrence exists; absent an occurrence the
source would raise `IndexError` (never reached), and `s` is returned. -/
def pySplit1 (s sep : String) : String :=
  match afterFirst sep.data s.data with
  | some l => ⟨l⟩
  | none => s

/-- Python's `s.split("\n")` on the character list: split at every newline,
keeping empty segments. -/
def splitLinesChars : List Char → List (List Char)
  | [] => [[]]
  | c :: rest =>
    let r := splitLinesChars rest
    if c = '\n' then [] :: r
    else
      match r with
      | [] => [[c]]
      | g :: gs => (c :: g) :: gs

/-- Python's `raw.split("\n")`. -/
def pyLines (s : String) : List String := (splitLinesChars s.data).map String.mk

/-! ## `src/saga/mode_controller.py` -/

/-- `OperationMode` enum (mode_controller.py:18-22). -/
inductive OperationMode where
  | co_pilot
  | semi_pilot
  | autopilot
deriving DecidableEq

/-- The `.value` string of each enum member (mode_controller.py:20-22). -/
def OperationMode.value : OperationMode → String
  | .co_pilot => "co-pilot"
  | .semi_pilot => "semi-pilot"
  | .autopilot => "autopilot"

/-- Python's `OperationMode(s)` enum lookup: `some m` when `s` is a member
value, `none` when the constructor would raise `ValueError`. -/
def OperationMode.ofValue (s : String) : Option OperationMode :=
  if s = "co-pilot" then some .co_pilot
  else if s = "semi-pilot" then some .semi_pilot
  else if s = "autopilot" then some .autopilot
  else none

/-- `MODE_REVIEW_STAGES` table (mode_controller.py:26-30); the Python sets
are modelled as duplicate-free lists. -/
def MODE_REVIEW_STAGES : OperationMode → List String
  | .co_pilot => ["analyze", "plan", "implement", "optimize"]
  | .semi_pilot => ["analyze"]
  | .autopilot => []

/-- State of a `ModeController` instance: current mode and the mutable
review-stage set (mode_controller.py:33-48). -/
structure ModeController where
  mode : OperationMode
  review_stages : List String
deriving DecidableEq

/-- `ModeController.__init__` (mode_controller.py:41-48): stores the mode and
a copy of that mode's default review-stage set. -/
def ModeController.init (default_mode : OperationMode) : ModeController :=
  { mode := default_mode, review_stages := MODE_REVIEW_STAGES default_mode }

/-- `ModeController.switch_mode` (mode_controller.py:56-64): replaces the mode
and resets the review-stage set to the new mode's default. -/
def ModeController.switch_mode (c : ModeController) (new_mode : OperationMode) :
    ModeController :=
  { mode := new_mode, review_stages := MODE_REVIEW_STAGES new_mode }

/-- `ModeController.requires_human_review` (mode_controller.py:67-78):
case-insensitive membership in the review-stage set. -/
def ModeController.requires_human_review (c : ModeController) (stage : String) : Bool :=
  c.review_stages.contains (pyLower stage)

/-- `ModeController.add_review_stage` (mode_controller.py:80-88): Python
`set.add`, a no-op when the element is present. -/
def ModeController.add_review_stage (c : ModeController) (stage : String) : ModeController :=
  { c with review_stages := c.review_stages.insert (pyLower stage) }

/-- `ModeController.remove_review_stage` (mode_controller.py:91-97): Python
`set.discard`. -/
def ModeController.remove_review_stage (c : ModeController) (stage : String) : ModeController :=
  { c with review_stages := c.review_stages.erase (pyLower stage) }

/-- The serialized state handled by `to_dict`/`from_dict`: a Python dict in
which either key may be absent (`from_dict` uses `data.get`). -/
structure ModeState where
  mode : Option String
  review_stages : Option (List String)

/-- `ModeController.to_dict` (mode_controller.py:121-126): both keys are
always present; `list(set)` is the stored list itself in this model. -/
def ModeController.to_dict (c : ModeController) : ModeState :=
  { mode := some c.mode.value, review_stages := some c.review_stages }

/-- Error raised by `ModeController.from_dict` when the mode string is not a
member of the enum (Python `ValueError` from `OperationMode(...)`; the spec
names it InvalidMode). -/
inductive RestoreError where
  | invalidMode (s : String)
deriving DecidableEq

/-- `ModeController.from_dict` (mode_controller.py:128-142):
`OperationMode(data.get("mode", "semi-pilot"))`, then a fresh controller,
then `review_stages` overridden with `set(data["review_stages"])` (`dedup`
models the set constructor) when the key is present. -/
def ModeController.from_dict (data : ModeState) : Except RestoreError ModeController :=
  match OperationMode.ofValue (data.mode.getD "semi-pilot") with
  | none => .error (.invalidMode (data.mode.getD "semi-pilot"))
  | some m =>
    let controller := ModeController.init m
    match data.review_stages with
    | some l => .ok { controller with review_stages := l.dedup }
    | none => .ok controller

/-! ## `src/saga/search/routers.py` — `MathStrategy.parse_candidates` -/

/-- One character of the allow-list regex `^[0-9a-zA-Z\.\+\-\*\/\(\)\,\=\s\_]+$`
(routers.py:134). -/
def allowedChar (c : Char) : Bool :=
  c.isDigit || c.isAlpha ||
    c == '.' || c == '+' || c == '-' || c == '*' || c == '/' ||
    c == '(' || c == ')' || c == ',' || c == '=' || c == '_' || c.isWhitespace

/-- The "must look like math" substrings tested on numbered-list items
(routers.py:152). -/
def mathOps : List String := ["+", "-", "*", "/", "**", "x"]

/-- `any(op in potential for op in [...])` (routers.py:152). -/
def MathStrategy.mathLook (s : String) : Bool := mathOps.any (fun op => substrB op s)

/-- Blocked natural-language tokens (routers.py:166). -/
def blockedWords : List String :=
  ["improve", "adjust", "formula", "candidate", "改進", "調整", "optimized"]

/-- Model of `re.match(r"^\d+\.\s*", clean)` + `re.split` on the same
pattern (routers.py:143-144): when `clean` starts with one or more (ASCII)
digits followed by a literal dot, returns the remainder after the greedy
`\s*`; otherwise `none`. -/
def numberedRest (clean : String) : Option String :=
  let ds := clean.data.takeWhile Char.isDigit
  if ds.isEmpty then none
  else
    match clean.data.drop ds.length with
    | '.' :: rest => some ⟨rest.dropWhile pyWs⟩
    | _ => none

/-- `potential.split("FORMULA:", 1)[1].strip()` applied when `potential`
starts with `FORMULA:` (routers.py:148-149), identity otherwise. -/
def stripFormulaTag (s : String) : String :=
  if pyStarts s "FORMULA:" then pyStrip (pySplit1 s "FORMULA:") else s

/-- The extraction phase of `MathStrategy.parse_candidates` for one stripped
line (routers.py:138-153): value of the Python variable `content` ("" when
nothing was extracted). -/
def MathStrategy.extractContent (clean : String) : String :=
  if pyStarts clean "FORMULA:" then pyStrip (pySplit1 clean "FORMULA:")
  else
    match numberedRest clean with
    | some rest =>
      let potential := stripFormulaTag (pyStrip rest)
      if MathStrategy.mathLook potential then potential else ""
    | none => ""

/-- One iteration of the parsing loop (routers.py:136-169): extraction, then
the comma/paren/length check, the allow-list check, and the blocked-word
check, in source order. -/
def MathStrategy.parseLine (line : String) : Option String :=
  let clean := pyStrip line
  let content := MathStrategy.extractContent clean
  if content = "" then none
  else if 3 < content.data.count ',' ∨ 4 < content.data.count '(' ∨
      100 < content.data.length then none
  else if content.data.all allowedChar = false then none
  else if blockedWords.any (fun w => substrB w (pyLower content)) = true then none
  else some content

/-- `MathStrategy.parse_candidates` (routers.py:130-172): surviving contents
in line order, truncated to `expected`. -/
def MathStrategy.parse_candidates (raw : String) (expected : Nat) : List String :=
  ((pyLines raw).filterMap MathStrategy.parseLine).take expected

/-! ## `src/saga/search/generators.py` -/

/-- `AnalysisReport` dataclass (generators.py:17-27); floats as `ℚ`, the
per-dimension statistics dict as `(min, max, avg, std)` tuples, and the
opaque `raw_data` payload omitted (no embedded code path reads it). -/
structure AnalysisReport where
  score_distribution : List (String × (ℚ × ℚ × ℚ × ℚ))
  goal_achievement : List (String × ℚ)
  pareto_count : Nat
  improvement_trend : ℚ
  bottleneck : String
  suggested_constraints : List String
  iteration : Nat

/-- Stable descending insertion: `x` is placed before the first element
whose key is not greater than `key x`, so an earlier-input element precedes
later equal-key ones.  Together with `sortDesc` this models Python's stable
`list.sort(key=..., reverse=True)` (generators.py:271). -/
def insertDesc {α : Type} (key : α → ℚ) (x : α) : List α → List α
  | [] => [x]
  | y :: ys => if key x < key y then y :: insertDesc key x ys else x :: y :: ys

/-- Stable descending sort by `key` (model of CPython's stable sort with
`reverse=True`). -/
def sortDesc {α : Type} (key : α → ℚ) : List α → List α
  | [] => []
  | x :: xs => insertDesc key x (sortDesc key xs)

/-- The weighted scalar computed per candidate inside
`ParetoSelector.select` (generators.py:264-267): dot product when the
weight vector length matches the score vector, unweighted sum otherwise. -/
def ParetoSelector.weightedOf (weights score_vec : List ℚ) : ℚ :=
  if weights.length = score_vec.length then
    ((weights.zip score_vec).map (fun p => p.1 * p.2)).sum
  else score_vec.sum

/-- `ParetoSelector.select` (generators.py:249-276): empty guard, weighted
scoring of `zip(candidates, scores)`, stable descending sort on the scalar,
first `top_k` pairs. -/
def ParetoSelector.select (candidates : List String) (scores : List (List ℚ))
    (weights : List ℚ) (top_k : Nat) : List (String × List ℚ) :=
  if candidates = [] ∨ scores = [] then []
  else
    let scored := (candidates.zip scores).map
      (fun p => (p.1, p.2, ParetoSelector.weightedOf weights p.2))
    let sorted := sortDesc (fun t => t.2.2) scored
    (sorted.take top_k).map (fun t => (t.1, t.2.1))

/-! ### `LLMGenerator` (generators.py:100-181) -/

/-- The `message` dict of one chat-completion choice; `content` may be
absent (`.get("content", "")` defaults it). -/
structure LMMessage where
  content : Option String

/-- One element of the `choices` array; `message` may be absent
(`.get("message", {})` defaults it). -/
structure LMChoice where
  message : Option LMMessage

/-- The response dict of `client.call`; `choices` may be absent
(`.get("choices", [{}])` defaults it to a one-element list holding an empty
dict). -/
structure LMResponse where
  choices : Option (List LMChoice)

/-- `response.get("choices", [{}])[0].get("message", {}).get("content", "")`
(generators.py:128): the `[0]` raises `IndexError` (modelled `.error`) when
`choices` is present but empty; missing inner keys default. -/
def LLMGenerator.extract_content (r : LMResponse) : Except Unit String :=
  match r.choices.getD [⟨none⟩] with
  | [] => .error ()
  | c :: _ => .ok ((c.message.getD ⟨none⟩).content.getD "")

/-- `LLMGenerator._parse_candidates` (generators.py:162-169): keep the text
after `CANDIDATE:` on lines whose stripped form starts with it, drop empty
contents, truncate to `expected`. -/
def LLMGenerator.parse_candidates (raw : String) (expected : Nat) : List String :=
  ((pyLines raw).filterMap (fun line =>
    if pyStarts (pyStrip line) "CANDIDATE:" then
      let content := pyStrip (pySplit1 line "CANDIDATE:")
      if content = "" then none else some content
    else none)).take expected

/-- `LLMGenerator._fallback_generate` (generators.py:171-181): for the first
`num` population members, even indices longer than 10 characters are
truncated to half length, all others get the fixed suffix appended. -/
def LLMGenerator.fallback_generate (population : List String) (num : Nat) : List String :=
  (population.take num).enum.map (fun ip =>
    if ip.1 % 2 = 0 ∧ 10 < ip.2.data.length then String.mk (ip.2.data.take (ip.2.data.length / 2))
    else ip.2 ++ "（改進版）")

/-- `LLMGenerator.generate` (generators.py:114-135).  Prompt construction is
pure string building and the single client call's outcome is abstracted as
`call : Except Unit LMResponse`, `.error` standing for any exception the
`try` block catches (client failure, or `IndexError` while indexing the
response, covered by `extract_content`); `feedback` is only rendered into
the prompt and so does not appear further. -/
def LLMGenerator.generate (call : Except Unit LMResponse) (population : List String)
    (feedback : AnalysisReport) (num_candidates : Nat) : List String :=
  match call with
  | .error _ => LLMGenerator.fallback_generate population num_candidates
  | .ok resp =>
    match LLMGenerator.extract_content resp with
    | .error _ => LLMGenerator.fallback_generate population num_candidates
    | .ok raw => LLMGenerator.parse_candidates raw num_candidates

/-! ### `EvoGenerator` (generators.py:184-243) -/

/-- One iteration's worth of RNG outcomes for `EvoGenerator.generate`:
the two `random.random()` rolls, the (ordered) distinct pair chosen by
`random.sample(population, 2)` encoded as `pair1 % n` and an offset
`pair2 % (n-1)` for the second index, the `random.choice` index, and the
`random.randint`/`random.choice` draws used by `_mutate`. -/
structure EvoDraw where
  cross_roll : ℚ
  pair1 : Nat
  pair2 : Nat
  pick : Nat
  mut_roll : ℚ
  mut_pos : Nat
  mut_word : Nat

/-- `EvoGenerator` instance state (generators.py:190-193). -/
structure EvoGenerator where
  mutation_rate : ℚ
  crossover_rate : ℚ

/-- The fixed marker vocabulary of `_mutate` (generators.py:241). -/
def EvoGenerator.mutations : List String := ["優化", "改進", "增強", "調整"]

/-- `EvoGenerator._mutate` (generators.py:234-243): empty candidates are
returned unchanged, otherwise one marker token is inserted at a position in
`[0, len-1]` (`random.randint(0, len(candidate) - 1)` modelled as
`mut_pos % len`, `random.choice(mutations)` as `mut_word % 4`). -/
def EvoGenerator.mutate (d : EvoDraw) (candidate : String) : String :=
  if candidate = "" then candidate
  else
    let pos := d.mut_pos % candidate.data.length
    let m := EvoGenerator.mutations.getD (d.mut_word % EvoGenerator.mutations.length) ""
    String.mk (candidate.data.take pos ++ m.data ++ candidate.data.drop pos)

/-- `EvoGenerator._crossover` (generators.py:228-232): first half of parent 1
up to its own midpoint plus the second half of parent 2 from its own
midpoint. -/
def EvoGenerator.crossover (parent1 parent2 : String) : String :=
  String.mk (parent1.data.take (parent1.data.length / 2) ++
    parent2.data.drop (parent2.data.length / 2))

/-- A Python list comprehension whose body may raise: evaluates the body
left to right, `none` as soon as one element raises. -/
def pyListComp {α β : Type} (f : α → Option β) : List α → Option (List β)
  | [] => some []
  | x :: xs =>
    match f x with
    | none => none
    | some y => (pyListComp f xs).map (y :: ·)

/-- `EvoGenerator.generate` (generators.py:195-223) with the RNG stream
passed as `draws` (one record per loop iteration).  With fewer than 2
members the list comprehension `[self._mutate(population[0]) for _ in
range(num_candidates)]` evaluates `population[0]` once per iteration —
`none` models the `IndexError` it raises on an empty population.  Otherwise
each iteration crossbreeds a distinct sampled pair with probability
`crossover_rate`, else copies a random member, then mutates with
probability `mutation_rate`; `feedback` is unused by the source body. -/
def EvoGenerator.generate (g : EvoGenerator) (population : List String)
    (feedback : AnalysisReport) (num_candidates : Nat) (draws : Nat → EvoDraw) :
    Option (List String) :=
  if population.length < 2 then
    pyListComp (fun i =>
      (population.get? 0).map (EvoGenerator.mutate (draws i))) (List.range num_candidates)
  else
    some ((List.range num_candidates).map (fun i =>
      let d := draws i
      let n := population.length
      let child :=
        if d.cross_roll < g.crossover_rate then
          let i1 := d.pair1 % n
          let j := d.pair2 % (n - 1)
          let i2 := if i1 ≤ j then j + 1 else j
          EvoGenerator.crossover (population.getD i1 "") (population.getD i2 "")
        else population.getD (d.pick % n) ""
      if d.mut_roll < g.mutation_rate then EvoGenerator.mutate d child else child))

/-! ## `src/saga/modules/advanced_implementer.py` -/

/-- The deny-list of `_validate_code` (advanced_implementer.py:190-195), in
source order. -/
def AdvancedImplementer.forbidden : List String :=
  ["import os", "import sys", "import subprocess",
   "open(", "exec(", "eval(",
   "__import__", "globals", "locals",
   "file", "input("]

/-- `_validate_code` (advanced_implementer.py:187-206): first matching
deny-listed substring rejects with its message; otherwise the source is
compiled as a program unit — CPython's `compile` builtin is abstracted as
the oracle `compileRes`, `none` meaning success and `some e` the text of
the `SyntaxError` raised. -/
def AdvancedImplementer.validate_code (compileRes : String → Option String)
    (code : String) : Bool × String :=
  match AdvancedImplementer.forbidden.find? (fun p => substrB p code) with
  | some p => (false, "Forbidden pattern: " ++ p)
  | none =>
    match compileRes code with
    | none => (true, "OK")
    | some e => (false, "Syntax error: " ++ e)

/-- `_fallback_scorer` (advanced_implementer.py:208-228): the hardcoded
fallback scoring source, byte for byte. -/
def AdvancedImplementer.fallback_scorer : String :=
  "\ndef score(text: str, context: dict) -> list:\n    \"\"\"Fallback scorer with basic metrics.\"\"\"\n    keywords = context.get(\"keywords\", [])\n    \n    # Length score\n    len_score = min(len(text) / 100, 1.0)\n    \n    # Keyword score  \n    if keywords:\n        kw_score = sum(1 for kw in keywords if kw.lower() in text.lower()) / len(keywords)\n    else:\n        kw_score = 1.0\n    \n    # Quality score (basic)\n    quality = 0.5\n    \n    return [len_score, kw_score, quality]\n"

/-- The slice of the dictionary `run` returns that the claims mention
(advanced_implementer.py:78-84); the tool-descriptor list is independent of
validation and omitted. -/
structure RunResult where
  scoring_code : String
  is_valid : Bool
  validation_message : String
  objectives : List String

/-- `AdvancedImplementer.run` (advanced_implementer.py:47-87).  The
generation step (the `use_llm` branch calling `_generate_with_llm`, else
`_generate_from_templates`, advanced_implementer.py:63-66) produces some
source text, abstracted here as the argument `scoring_code` so the theorem
quantifies over every generated scoring source; the rest follows the
source: validate, substitute the fallback scorer when invalid, and report
the original validation outcome. -/
def AdvancedImplementer.run (compileRes : String → Option String)
    (scoring_code : String) (objectives : List String) : RunResult :=
  let v := AdvancedImplementer.validate_code compileRes scoring_code
  let code := if v.1 then scoring_code else AdvancedImplementer.fallback_scorer
  { scoring_code := code, is_valid := v.1, validation_message := v.2,
    objectives := objectives }

/-! ## Sanity checks on the string helpers and embeddings -/

example : substrB "ab" "xxabz" = true := by decide
example : substrB "ab" "xaxb" = false := by decide
example : pySplit1 "FORMULA: x+1" "FORMULA:" = " x+1" := by decide
example : pyStrip "  a b\t" = "a b" := by decide
example : pyLines "a\n\nbc" = ["a", "", "bc"] := by decide
example : pyLower "Ab改進" = "ab改進" := by decide
example :
    ((((ModeController.init .semi_pilot).add_review_stage
        "optimize").switch_mode .autopilot).requires_human_review "optimize") = false := by
  decide
example : MathStrategy.parse_candidates
    "1. x**2 + 3*x - 2\n2. FORMULA: (x+1)**2 + x - 3\n3. 2*x**2 - 5" 5 =
    ["x**2 + 3*x - 2", "(x+1)**2 + x - 3", "2*x**2 - 5"] := by decide
example : MathStrategy.parse_candidates "1. 5" 5 = [] := by decide
example : MathStrategy.parse_candidates "FORMULA: 5" 5 = ["5"] := by decide

/-! ### Lemmas about the stable descending sort -/

theorem insertDesc_perm {α : Type} (key : α → ℚ) (x : α) (l : List α) :
    (insertDesc key x l).Perm (x :: l) := by
  induction l with
  | nil => rfl
  | cons y ys ih =>
    simp only [insertDesc]
    split_ifs with h
    · exact (ih.cons y).trans (List.Perm.swap x y ys)
    · rfl

theorem sortDesc_perm {α : Type} (key : α → ℚ) (l : List α) :
    (sortDesc key l).Perm l := by
  induction l with
  | nil => rfl
  | cons x xs ih => exact (insertDesc_perm key x _).trans (ih.cons x)

theorem insertDesc_pairwise {α : Type} (key : α → ℚ) (x : α) (l : List α)
    (h : l.Pairwise (fun a b => key b ≤ key a)) :
    (insertDesc key x l).Pairwise (fun a b => key b ≤ key a) := by
  induction l with
  | nil => simp [insertDesc]
  | cons y ys ih =>
    rcases List.pairwise_cons.mp h with ⟨hy, hys⟩
    simp only [insertDesc]
    split_ifs with hlt
    · refine List.pairwise_cons.mpr ⟨?_, ih hys⟩
      intro b hb
      rcases List.mem_cons.mp ((insertDesc_perm key x ys).mem_iff.mp hb) with rfl | hb'
      · exact le_of_lt hlt
      · exact hy b hb'
    · push_neg at hlt
      refine List.pairwise_cons.mpr ⟨?_, h⟩
      intro b hb
      rcases List.mem_cons.mp hb with rfl | hb'
      · exact hlt
      · exact (hy b hb').trans hlt

theorem sortDesc_pairwise {α : Type} (key : α → ℚ) (l : List α) :
    (sortDesc key l).Pairwise (fun a b => key b ≤ key a) := by
  induction l with
  | nil => exact List.Pairwise.nil
  | cons x xs ih => exact insertDesc_pairwise key x _ ih

theorem insertDesc_filter {α : Type} (key : α → ℚ) (q : ℚ) (x : α) (l : List α) :
    (insertDesc key x l).filter (fun a => decide (key a = q)) =
      if key x = q then x :: l.filter (fun a => decide (key a = q))
      else l.filter (fun a => decide (key a = q)) := by
  induction l with
  | nil =>
    by_cases hxq : key x = q <;> simp [insertDesc, List.filter, hxq]
  | cons y ys ih =>
    simp only [insertDesc]
    split_ifs with hlt hxq hxq
    · have hyq : ¬ key y = q := by
        intro hy
        rw [hxq, ← hy] at hlt
        exact lt_irrefl _ hlt
      simp [List.filter_cons, hyq, hxq, ih]
    · simp [List.filter_cons, ih, hxq]
    · simp [List.filter_cons, hxq]
    · simp [List.filter_cons, hxq]

theorem sortDesc_filter {α : Type} (key : α → ℚ) (q : ℚ) (l : List α) :
    (sortDesc key l).filter (fun a => decide (key a = q)) =
      l.filter (fun a => decide (key a = q)) := by
  induction l with
  | nil => rfl
  | cons x xs ih =>
    simp only [sortDesc]
    rw [insertDesc_filter]
    by_cases hxq : key x = q <;> simp [List.filter_cons, hxq, ih]

theorem insertDesc_map {α β : Type} (key : α → ℚ) (keyb : β → ℚ) (f : α → β)
    (hk : ∀ a, keyb (f a) = key a) (x : α) (l : List α) :
    (insertDesc key x l).map f = insertDesc keyb (f x) (l.map f) := by
  induction l with
  | nil => rfl
  | cons y ys ih =>
    simp only [insertDesc, List.map_cons, hk]
    split_ifs with h
    · simp [List.map_cons, ih]
    · simp [List.map_cons]

theorem sortDesc_map {α β : Type} (key : α → ℚ) (keyb : β → ℚ) (f : α → β)
    (hk : ∀ a, keyb (f a) = key a) (l : List α) :
    (sortDesc key l).map f = sortDesc keyb (l.map f) := by
  induction l with
  | nil => rfl
  | cons x xs ih =>
    simp only [sortDesc, List.map_cons]
    rw [insertDesc_map key keyb f hk, ih]


/-- A comprehension whose body never raises returns `some` of the map. -/
theorem pyListComp_of_some {α β : Type} (f : α → β) (l : List α) :
    pyListComp (fun a => some (f a)) l = some (l.map f) := by
  induction l with
  | nil => rfl
  | cons x xs ih => simp [pyListComp, ih, List.map_cons]

/-! ## Claim theorems for the mode controller -/

/-- C2: immediately after construction with a mode and immediately after
`switch_mode(new_mode)`, the review-stage set equals exactly that mode's
static default set — regardless of any stages added or removed manually
before the switch; in particular starting in semi-pilot, adding "optimize"
and switching to autopilot makes `requires_human_review "optimize"` false. -/
theorem C2_review_set_is_mode_default :
    (∀ m : OperationMode, (ModeController.init m).review_stages = MODE_REVIEW_STAGES m) ∧
    (∀ (c : ModeController) (m : OperationMode),
        (c.switch_mode m).review_stages = MODE_REVIEW_STAGES m) ∧
    ((((ModeController.init .semi_pilot).add_review_stage
        "optimize").switch_mode .autopilot).requires_human_review "optimize") = false :=
  ⟨fun _ => rfl, fun _ _ => rfl, by decide⟩

/-- C3: serializing a `ModeController` with `to_dict` and restoring with
`from_dict` reproduces a controller with identical mode and identical
review-stage set (same membership); and `from_dict` on a state whose mode
string is none of "co-pilot"/"semi-pilot"/"autopilot" fails with an
InvalidMode error instead of silently defaulting. -/
theorem C3_roundtrip_and_invalid_mode :
    (∀ c : ModeController, ∃ c' : ModeController,
        ModeController.from_dict c.to_dict = .ok c' ∧ c'.mode = c.mode ∧
        ∀ s : String, s ∈ c'.review_stages ↔ s ∈ c.review_stages) ∧
    (∀ (s : String) (rs : Option (List String)),
        s ≠ "co-pilot" → s ≠ "semi-pilot" → s ≠ "autopilot" →
        ModeController.from_dict ⟨some s, rs⟩ = .error (.invalidMode s)) := by
  constructor
  · intro c
    refine ⟨⟨c.mode, c.review_stages.dedup⟩, ?_, rfl, fun s => List.mem_dedup⟩
    cases c with
    | mk m stages =>
      cases m <;>
        simp [ModeController.to_dict, ModeController.from_dict, OperationMode.ofValue,
          OperationMode.value, ModeController.init]
  · intro s rs h1 h2 h3
    simp [ModeController.from_dict, OperationMode.ofValue, h1, h2, h3]

/-- Witness for C3: a round trip from the co-pilot default state, and the
unknown mode string "warp-pilot" rejected with InvalidMode. -/
theorem C3_witness :
    (∃ c' : ModeController,
        ModeController.from_dict (ModeController.init .co_pilot).to_dict = .ok c' ∧
        c'.mode = (ModeController.init .co_pilot).mode ∧
        ∀ s : String, s ∈ c'.review_stages ↔ s ∈ (ModeController.init .co_pilot).review_stages) ∧
    ModeController.from_dict ⟨some "warp-pilot", none⟩ =
      .error (.invalidMode "warp-pilot") :=
  ⟨C3_roundtrip_and_invalid_mode.1 (ModeController.init .co_pilot),
   C3_roundtrip_and_invalid_mode.2 "warp-pilot" none
     (by decide) (by decide) (by decide)⟩

/-- C9: `from_dict` on a state lacking the "mode" key does not fail: it
defaults the mode to semi-pilot (and, when "review_stages" is also absent,
the review-stage set to semi-pilot's default); an error occurs exactly when
a mode string is present but not a member of the enum. -/
theorem C9_missing_mode_defaults :
    (∀ rs : Option (List String),
        ModeController.from_dict ⟨none, rs⟩ =
          .ok ⟨.semi_pilot, (rs.map List.dedup).getD (MODE_REVIEW_STAGES .semi_pilot)⟩) ∧
    (∀ data : ModeState,
        (∃ e, ModeController.from_dict data = .error e) ↔
          ∃ s, data.mode = some s ∧ OperationMode.ofValue s = none) := by
  constructor
  · intro rs
    cases rs <;> rfl
  · intro data
    cases data with
    | mk md rs =>
      cases md with
      | none =>
        simp only [ModeController.from_dict, Option.getD]
        constructor
        · rintro ⟨e, he⟩
          cases rs <;> simp [OperationMode.ofValue] at he
        · rintro ⟨s, hs, _⟩
          exact absurd hs (by simp)
      | some s =>
        simp only [ModeController.from_dict, Option.getD]
        cases hv : OperationMode.ofValue s with
        | none => exact ⟨fun _ => ⟨s, rfl, hv⟩, fun _ => ⟨.invalidMode s, rfl⟩⟩
        | some m =>
          constructor
          · rintro ⟨e, he⟩
            cases rs <;> simp at he
          · rintro ⟨s', hs', hv'⟩
            cases hs'
            rw [hv] at hv'
            cases hv'

/-! ## Claim theorems for the math parser -/

/-- C4 counterexample: the line "1. 5" is in numbered-list form with
expression "5", and "5" passes every filter the claim lists (length,
commas, open parens, character allow-list, blocked words), yet
`parse_candidates` drops it — so the parser does not return every candidate
surviving those filters. -/
theorem C4_counterexample :
    MathStrategy.parse_candidates "1. 5" 5 = [] ∧
    numberedRest (pyStrip "1. 5") = some "5" ∧
    "5".data.length ≤ 100 ∧ "5".data.count ',' ≤ 3 ∧ "5".data.count '(' ≤ 4 ∧
    "5".data.all allowedChar = true ∧
    blockedWords.all (fun w => !substrB w (pyLower "5")) = true := by
  decide

/-- C4 (amended): `parse_candidates` extracts from `FORMULA:` lines and
numbered-list lines — where, for the numbered-list form only, the expression
(after stripping an inner `FORMULA:` tag) must additionally contain one of
the substrings `+ - * / ** x` — and a line yields a candidate exactly when
the extracted content is nonempty, has at most 3 commas, at most 4 open
parentheses, at most 100 characters, only allow-listed characters, and no
blocked token; survivors are returned verbatim in input-line order truncated
to `expected`.  On the three example lines all three expressions come back
verbatim in order, and lines consisting of "improve" or "公式" yield
nothing. -/
theorem C4_parse_candidates_amended :
    (∀ raw expected, MathStrategy.parse_candidates raw expected =
        ((pyLines raw).filterMap MathStrategy.parseLine).take expected) ∧
    (∀ line c, MathStrategy.parseLine line = some c ↔
        (MathStrategy.extractContent (pyStrip line) = c ∧ c ≠ "" ∧
         c.data.count ',' ≤ 3 ∧ c.data.count '(' ≤ 4 ∧ c.data.length ≤ 100 ∧
         c.data.all allowedChar = true ∧
         ∀ w ∈ blockedWords, substrB w (pyLower c) = false)) ∧
    MathStrategy.parse_candidates
        "1. x**2 + 3*x - 2\n2. FORMULA: (x+1)**2 + x - 3\n3. 2*x**2 - 5" 5 =
      ["x**2 + 3*x - 2", "(x+1)**2 + x - 3", "2*x**2 - 5"] ∧
    MathStrategy.parse_candidates "improve" 5 = [] ∧
    MathStrategy.parse_candidates "公式" 5 = [] := by
  refine ⟨fun raw expected => rfl, ?_, by decide, by decide, by decide⟩
  intro line c
  constructor
  · intro h
    simp only [MathStrategy.parseLine] at h
    split_ifs at h with h1 h2 h3 h4
    cases h
    push_neg at h2
    refine ⟨rfl, h1, h2.1, h2.2.1, h2.2.2, ?_, ?_⟩
    · exact Bool.not_eq_false _ |>.mp h3 |> fun hh => by
        cases hb : MathStrategy.extractContent (pyStrip line) |>.data.all allowedChar
        · exact absurd hb h3
        · rfl
    · intro w hw
      have hany := Bool.not_eq_true _ |>.mp h4
      rw [List.any_eq_false] at hany
      have := hany w hw
      cases hs : substrB w (pyLower (MathStrategy.extractContent (pyStrip line)))
      · rfl
      · exact absurd hs this
  · rintro ⟨hex, hne, hc1, hc2, hc3, hall, hbl⟩
    simp only [MathStrategy.parseLine, hex]
    split_ifs with h1 h2 h3 h4
    · exact absurd h1 hne
    · omega
    · rw [hall] at h3
      cases h3
    · rw [List.any_eq_true] at h4
      obtain ⟨w, hw, hsub⟩ := h4
      rw [hbl w hw] at hsub
      cases hsub
    · rfl

/-- C10: numbered-list lines pass through an extra filter absent from the
`FORMULA:` branch: when the expression after the numbered prefix (with any
inner `FORMULA:` tag stripped) contains none of `+ - * / ** x`, the line is
dropped; concretely "1. 5" yields nothing although "5" passes the length,
allow-list and blocked-word filters, while the line "FORMULA: 5" yields
"5". -/
theorem C10_numbered_needs_math_substring :
    (∀ line rest, numberedRest (pyStrip line) = some rest →
        pyStarts (pyStrip line) "FORMULA:" = false →
        MathStrategy.mathLook (stripFormulaTag (pyStrip rest)) = false →
        MathStrategy.parseLine line = none) ∧
    MathStrategy.parse_candidates "1. 5" 5 = [] ∧
    MathStrategy.parse_candidates "FORMULA: 5" 5 = ["5"] ∧
    "5".data.all allowedChar = true ∧ "5".data.length ≤ 100 ∧
    blockedWords.all (fun w => !substrB w (pyLower "5")) = true := by
  refine ⟨?_, by decide, by decide, by decide, by decide, by decide⟩
  intro line rest hnum hpfx hlook
  simp only [MathStrategy.parseLine, MathStrategy.extractContent, hpfx, hnum, hlook,
    Bool.false_eq_true, if_false]
  rfl

/-- Witness for C10: the numbered line "1. 7" (expression "7", no math
substring) is dropped. -/
theorem C10_witness : MathStrategy.parseLine "1. 7" = none :=
  C10_numbered_needs_math_substring.1 "1. 7" "7" (by decide) (by decide) (by decide)

/-! ## Claim theorem for the Pareto selector -/

/-- C5: `ParetoSelector.select` scores each zipped (candidate, vector) pair
with the dot product of the weights (unweighted sum on length mismatch),
sorts by that scalar with a stable descending sort and returns the first
`top_k` pairs; the sort is a permutation, descending on the scalar, and
preserves the input order of equal-scalar entries; on the concrete
4-candidate example with `top_k = 2`, "C" is returned first, followed by
"A". -/
theorem C5_pareto_select_spec :
    (∀ cands scores weights k,
        ParetoSelector.select cands scores weights k =
          (sortDesc (fun p => ParetoSelector.weightedOf weights p.2)
            (cands.zip scores)).take k) ∧
    (∀ w v, ParetoSelector.weightedOf w v =
        if w.length = v.length then ((w.zip v).map (fun p => p.1 * p.2)).sum
        else v.sum) ∧
    (∀ (key : String × List ℚ → ℚ) (l : List (String × List ℚ)),
        (sortDesc key l).Perm l ∧
        (sortDesc key l).Pairwise (fun a b => key b ≤ key a) ∧
        (∀ q : ℚ, (sortDesc key l).filter (fun a => decide (key a = q)) =
            l.filter (fun a => decide (key a = q)))) ∧
    ParetoSelector.select ["A", "B", "C", "D"]
        [[8/10, 6/10, 7/10], [5/10, 9/10, 4/10], [9/10, 9/10, 9/10], [3/10, 3/10, 3/10]]
        [33/100, 34/100, 33/100] 2 =
      [("C", [9/10, 9/10, 9/10]), ("A", [8/10, 6/10, 7/10])] := by
  refine ⟨?_, fun w v => rfl,
    fun key l => ⟨sortDesc_perm key l, sortDesc_pairwise key l, fun q => sortDesc_filter key q l⟩,
    ?_⟩
  · intro cands scores weights k
    simp only [ParetoSelector.select]
    split_ifs with h
    · rcases h with rfl | rfl <;> simp [sortDesc]
    · have hmap := sortDesc_map (fun p : String × List ℚ => ParetoSelector.weightedOf weights p.2)
        (fun t : String × List ℚ × ℚ => t.2.2)
        (fun p : String × List ℚ => (p.1, p.2, ParetoSelector.weightedOf weights p.2))
        (fun p => rfl) (cands.zip scores)
      rw [← hmap, ← List.map_take, List.map_map]
      have hid : ((fun t : String × List ℚ × ℚ => (t.1, t.2.1)) ∘
          fun p : String × List ℚ => (p.1, p.2, ParetoSelector.weightedOf weights p.2)) = id := by
        funext p
        rfl
      rw [hid, List.map_id]
  · norm_num [ParetoSelector.select, sortDesc, insertDesc, ParetoSelector.weightedOf]
    rintro (h | h) <;> simp at h

/-! ## Claim theorems for the generators -/

/-- C7: whenever the language-model call raises (`call = .error`) or the
response is malformed so that extracting `choices[0]` raises,
`LLMGenerator.generate` returns the deterministic fallback list instead of
propagating the failure; the fallback of an empty population is the empty
list, and in general it maps the first `num` members, truncating even
indices longer than 10 characters to half length and appending the fixed
suffix otherwise. -/
theorem C7_llm_generate_fallback :
    (∀ (call : Except Unit LMResponse) (pop : List String) (fb : AnalysisReport) (n : Nat),
        (call = .error () ∨ ∃ r, call = .ok r ∧ LLMGenerator.extract_content r = .error ()) →
        LLMGenerator.generate call pop fb n = LLMGenerator.fallback_generate pop n) ∧
    (∀ n, LLMGenerator.fallback_generate [] n = []) ∧
    (∀ pop n, (LLMGenerator.fallback_generate pop n).length = min n pop.length) ∧
    (∀ (pop : List String) (n i : Nat) (p : String), pop[i]? = some p → i < n →
        (LLMGenerator.fallback_generate pop n)[i]? =
          some (if i % 2 = 0 ∧ 10 < p.data.length then String.mk (p.data.take (p.data.length / 2))
                else p ++ "（改進版）")) := by
  refine ⟨?_, fun n => by simp [LLMGenerator.fallback_generate], ?_, ?_⟩
  · rintro call pop fb n (rfl | ⟨r, rfl, hr⟩)
    · rfl
    · show (match LLMGenerator.extract_content r with
        | .error _ => LLMGenerator.fallback_generate pop n
        | .ok raw => LLMGenerator.parse_candidates raw n) =
        LLMGenerator.fallback_generate pop n
      rw [hr]
  · intro pop n
    simp [LLMGenerator.fallback_generate]
  · intro pop n i p hp hi
    simp [LLMGenerator.fallback_generate, List.getElem?_map, List.getElem?_enum,
      List.getElem?_take, hp, hi]

/-- Witness for C7: a failing call on a two-element population yields the
fallback list. -/
theorem C7_witness :
    LLMGenerator.generate (.error ()) ["abcdefghijklm", "xy"]
        ⟨[], [], 0, 0, "", [], 0⟩ 2 =
      LLMGenerator.fallback_generate ["abcdefghijklm", "xy"] 2 :=
  C7_llm_generate_fallback.1 (.error ()) ["abcdefghijklm", "xy"]
    ⟨[], [], 0, 0, "", [], 0⟩ 2 (Or.inl rfl)

/-- C6: for every population with at least one member, every analysis
report and every RNG outcome, `EvoGenerator.generate` returns exactly
`num_candidates` candidates; and with a single member it is mutation-only:
the output is exactly the per-iteration mutations of that member (no
crossover occurs). -/
theorem C6_evo_generate_exact_n :
    ∀ (g : EvoGenerator) (pop : List String) (fb : AnalysisReport)
      (draws : Nat → EvoDraw) (n : Nat),
      1 ≤ pop.length →
      ∃ out, g.generate pop fb n draws = some out ∧ out.length = n ∧
        (pop.length = 1 →
          out = (List.range n).map (fun i => EvoGenerator.mutate (draws i) (pop.headD ""))) := by
  intro g pop fb draws n hlen
  by_cases h2 : pop.length < 2
  · have h1 : pop.length = 1 := by omega
    obtain ⟨a, rfl⟩ := List.length_eq_one.mp h1
    refine ⟨(List.range n).map (fun i => EvoGenerator.mutate (draws i) a), ?_, by simp, fun _ => rfl⟩
    simp only [EvoGenerator.generate, List.length_cons, List.length_nil]
    rw [if_pos (by omega)]
    simp only [List.get?_cons_zero, Option.map_some]
    exact pyListComp_of_some _ _
  · unfold EvoGenerator.generate
    rw [if_neg h2]
    exact ⟨_, rfl, by simp, fun h1 => absurd h1 (by omega)⟩

/-- Witness for C6: a singleton population, two candidates requested. -/
theorem C6_witness :
    ∃ out, EvoGenerator.generate ⟨1/10, 7/10⟩ ["ab"] ⟨[], [], 0, 0, "", [], 0⟩ 2
        (fun _ => ⟨0, 0, 0, 0, 0, 0, 0⟩) = some out ∧ out.length = 2 ∧
      (List.length ["ab"] = 1 →
        out = (List.range 2).map (fun i =>
          EvoGenerator.mutate ((fun _ => ⟨0, 0, 0, 0, 0, 0, 0⟩ : Nat → EvoDraw) i)
            (["ab"].headD ""))) :=
  C6_evo_generate_exact_n ⟨1/10, 7/10⟩ ["ab"] ⟨[], [], 0, 0, "", [], 0⟩
    (fun _ => ⟨0, 0, 0, 0, 0, 0, 0⟩) 2 (by decide)

/-- C8 counterexample: with an empty population and `num_candidates = 0`
the comprehension body — and with it `population[0]` — is never evaluated,
so `EvoGenerator.generate` returns the empty list rather than failing. -/
theorem C8_counterexample :
    EvoGenerator.generate ⟨1/10, 7/10⟩ [] ⟨[], [], 0, 0, "", [], 0⟩ 0
      (fun _ => ⟨0, 0, 0, 0, 0, 0, 0⟩) = some [] := rfl

/-- C8 (amended): on an empty population `EvoGenerator.generate` takes the
mutation-only path and evaluates `population[0]` in the first iteration, so
for every `num_candidates ≥ 1` (and any RNG outcome) it fails with an index
error instead of returning a list; only the degenerate request `n = 0`
escapes. -/
theorem C8_empty_pop_index_error :
    ∀ (g : EvoGenerator) (fb : AnalysisReport) (draws : Nat → EvoDraw) (n : Nat),
      1 ≤ n → g.generate [] fb n draws = none := by
  intro g fb draws n hn
  obtain ⟨m, rfl⟩ : ∃ m, n = m + 1 := ⟨n - 1, by omega⟩
  unfold EvoGenerator.generate
  rw [if_pos (by simp), List.range_succ_eq_map]
  rfl

/-- Witness for C8: the empty population fails already at `n = 1`. -/
theorem C8_witness :
    EvoGenerator.generate ⟨1/10, 7/10⟩ [] ⟨[], [], 0, 0, "", [], 0⟩ 1
      (fun _ => ⟨0, 0, 0, 0, 0, 0, 0⟩) = none :=
  C8_empty_pop_index_error ⟨1/10, 7/10⟩ ⟨[], [], 0, 0, "", [], 0⟩
    (fun _ => ⟨0, 0, 0, 0, 0, 0, 0⟩) 1 (by decide)

/-! ## Claim theorem for the implementer -/

/-- C1: `run` validates every generated scoring source: validation fails
exactly when the source contains a deny-listed dangerous substring or the
compile oracle reports a syntax failure; the returned `is_valid` and
`validation_message` are exactly the validation's outcome on the original
source, while the returned `scoring_code` is the original source when valid
and the hardcoded fallback scorer when not. -/
theorem C1_run_validates_and_substitutes :
    ∀ (compileRes : String → Option String) (code : String) (objectives : List String),
      ((AdvancedImplementer.validate_code compileRes code).1 = false ↔
        ((∃ p ∈ AdvancedImplementer.forbidden, substrB p code = true) ∨
          compileRes code ≠ none)) ∧
      (AdvancedImplementer.run compileRes code objectives).is_valid =
        (AdvancedImplementer.validate_code compileRes code).1 ∧
      (AdvancedImplementer.run compileRes code objectives).validation_message =
        (AdvancedImplementer.validate_code compileRes code).2 ∧
      (AdvancedImplementer.run compileRes code objectives).scoring_code =
        (if (AdvancedImplementer.validate_code compileRes code).1 then code
         else AdvancedImplementer.fallback_scorer) := by
  intro compileRes code objectives
  refine ⟨?_, rfl, rfl, rfl⟩
  cases hf : AdvancedImplementer.forbidden.find? (fun p => substrB p code) with
  | some p =>
    have hv : AdvancedImplementer.validate_code compileRes code =
        (false, "Forbidden pattern: " ++ p) := by
      unfold AdvancedImplementer.validate_code
      rw [hf]
    rw [hv]
    constructor
    · intro _
      have hmem := List.mem_of_find?_eq_some hf
      have hps : substrB p code = true := by
        have hfs := List.find?_some hf
        simpa using hfs
      exact Or.inl ⟨p, hmem, hps⟩
    · intro _
      rfl
  | none =>
    have hnone := List.find?_eq_none.mp hf
    cases hc : compileRes code with
    | none =>
      have hv : AdvancedImplementer.validate_code compileRes code = (true, "OK") := by
        unfold AdvancedImplementer.validate_code
        rw [hf, hc]
      rw [hv]
      constructor
      · intro h
        simp at h
      · rintro (⟨p, hp, hsub⟩ | hne)
        · have hx := hnone p hp
          simp [hsub] at hx
        · exact absurd rfl hne
    | some e =>
      have hv : AdvancedImplementer.validate_code compileRes code =
          (false, "Syntax error: " ++ e) := by
        unfold AdvancedImplementer.validate_code
        rw [hf, hc]
      rw [hv]
      constructor
      · intro _
        refine Or.inr ?_
        simp
      · intro _
        rfl
